import Mathlib

/-
Verification of the chess_app core against its specification.

Shallow embedding of:
  - chess_core/clocks.py  (ChessClocks: authoritative clock state machine)
  - review/reviewer.py    (review_pgn: move-quality review pipeline)

Conventions of the embedding:
  - Python ints are Lean Int (arbitrary precision, as in Python).
  - Wall-clock reads (_now_ms) become an explicit `now : Int` argument to each
    operation; the several reads inside one operation happen at the same instant.
  - Python truthiness of the `flagged` field (a str-or-None) is modelled by
    `truthy : Option String -> Bool` (None and the empty string are falsy).
  - The external Rules Engine (python-chess) and the external analyzer
    (stockfish_adapter.analyze_fen) are out of scope per the spec; the review
    pipeline is embedded over an input that carries, for each ply, the two
    analyzer results the code would receive (the analyzer oracle), and the
    parse step is an `Option` input (none = unparseable PGN).
  - Python floats in the accuracy computation are modelled as exact rationals;
    round(x, 1) becomes `round1` on these rationals.
-/

/-- Python truthiness of a str-or-None value: None and the empty string are falsy. -/
def truthy : Option String → Bool
  | none => false
  | some str => if str = "" then false else true

/-- ClockState, from chess_core/clocks.py (dataclass ClockState). -/
structure ClockState where
  base_ms : Int
  inc_ms : Int
  w_ms : Int
  b_ms : Int
  running : Bool
  turn : String
  started_at_ms : Option Int
  flagged : Option String
deriving DecidableEq, Repr

namespace ChessClocks

/-- ChessClocks.__init__: both sides start at base_ms, not running, not flagged. -/
def init (base_ms : Int) (inc_ms : Int) (turn : String) : ClockState :=
  { base_ms := base_ms
    inc_ms := inc_ms
    w_ms := base_ms
    b_ms := base_ms
    running := false
    turn := turn
    started_at_ms := none
    flagged := none }

/-- ChessClocks._apply_elapsed: commit elapsed time against the side to move,
flooring at zero and latching the flag on zero; refresh started_at_ms. -/
def _apply_elapsed (s : ClockState) (now : Int) : ClockState :=
  if s.running = false ∨ s.started_at_ms = none ∨ truthy s.flagged = true then s
  else
    match s.started_at_ms with
    | none => s
    | some t0 =>
      let elapsed := now - t0
      if s.turn = "w" then
        let w := s.w_ms - elapsed
        if w ≤ 0 then { s with w_ms := 0, flagged := some "w", started_at_ms := some now }
        else { s with w_ms := w, started_at_ms := some now }
      else
        let b := s.b_ms - elapsed
        if b ≤ 0 then { s with b_ms := 0, flagged := some "b", started_at_ms := some now }
        else { s with b_ms := b, started_at_ms := some now }

/-- ChessClocks.start(turn): a valid turn token is applied first; no-op if
flagged; if not running, mark running and record the start instant. -/
def start (s : ClockState) (turn : Option String) (now : Int) : ClockState :=
  let s1 :=
    match turn with
    | some t => if t = "w" ∨ t = "b" then { s with turn := t } else s
    | none => s
  if truthy s1.flagged = true then s1
  else if s1.running = false then { s1 with running := true, started_at_ms := some now }
  else s1

/-- ChessClocks.pause: no-op if not running; otherwise commit elapsed, stop. -/
def pause (s : ClockState) (now : Int) : ClockState :=
  if s.running = false then s
  else
    let s1 := _apply_elapsed s now
    { s1 with running := false, started_at_ms := none }

/-- ChessClocks.reset(turn): pause, restore both sides to base, clear the flag. -/
def reset (s : ClockState) (turn : String) (now : Int) : ClockState :=
  let s1 := pause s now
  { s1 with w_ms := s1.base_ms, b_ms := s1.base_ms, flagged := none, turn := turn }

/-- ChessClocks.configure: remember whether it was running, pause (the paused
state is then discarded by the wholesale reassignment of self.state), install
the fresh configuration, and restart if it had been running. -/
def configure (s : ClockState) (base_ms inc_ms : Int) (turn : String) (now : Int) : ClockState :=
  let was_running := s.running
  let _s1 := pause s now
  let s2 : ClockState :=
    { base_ms := base_ms
      inc_ms := inc_ms
      w_ms := base_ms
      b_ms := base_ms
      running := false
      turn := turn
      started_at_ms := none
      flagged := none }
  if was_running = true then start s2 (some turn) now else s2

/-- The commit step at the top of ChessClocks.on_move:
`if self.state.running: self._apply_elapsed()`. -/
def commitIfRunning (s : ClockState) (now : Int) : ClockState :=
  if s.running = true then _apply_elapsed s now else s

/-- The tail of ChessClocks.on_move after the elapsed commit, applied to the
committed state: credit the increment to the mover when their remaining time
is still positive, pass the turn, restart the timer when still unflagged. -/
def moveCore (s1 : ClockState) (moved_by : String) (now : Int) : ClockState :=
  let s2 :=
    if moved_by = "w" ∧ 0 < s1.w_ms then { s1 with w_ms := s1.w_ms + s1.inc_ms }
    else if moved_by = "b" ∧ 0 < s1.b_ms then { s1 with b_ms := s1.b_ms + s1.inc_ms }
    else s1
  let s3 := { s2 with turn := if moved_by = "w" then "b" else "w" }
  if truthy s3.flagged = false then { s3 with started_at_ms := some now, running := true }
  else s3

/-- ChessClocks.on_move(moved_by): no-op if flagged; commit elapsed if running
(commitIfRunning), then increment / turn pass / restart (moveCore). -/
def on_move (s : ClockState) (moved_by : String) (now : Int) : ClockState :=
  if truthy s.flagged = true then s
  else moveCore (commitIfRunning s now) moved_by now

/-- The view returned by ChessClocks.snapshot (a dict in the source). -/
structure ClockSnapshot where
  base_ms : Int
  inc_ms : Int
  w_ms : Int
  b_ms : Int
  running : Bool
  turn : String
  flagged : Option String
deriving DecidableEq, Repr

/-- ChessClocks.snapshot: the method only reads self.state (returned unchanged
as the first component) and computes a live view: if running and unflagged the
active side shows the live elapsed subtracted, floored at zero; a zero crossing
is reported in the view even before the authoritative flag is latched. -/
def snapshot (s : ClockState) (now : Int) : ClockState × ClockSnapshot :=
  let wb : Int × Int :=
    if s.running = true ∧ s.started_at_ms ≠ none ∧ truthy s.flagged = false then
      match s.started_at_ms with
      | some t0 =>
        let elapsed := now - t0
        if s.turn = "w" then (max 0 (s.w_ms - elapsed), s.b_ms)
        else (s.w_ms, max 0 (s.b_ms - elapsed))
      | none => (s.w_ms, s.b_ms)
    else (s.w_ms, s.b_ms)
  let w_ms := wb.1
  let b_ms := wb.2
  let flagged :=
    if truthy s.flagged = false then
      if w_ms ≤ 0 then some "w"
      else if b_ms ≤ 0 then some "b"
      else s.flagged
    else s.flagged
  (s,
   { base_ms := s.base_ms
     inc_ms := s.inc_ms
     w_ms := w_ms
     b_ms := b_ms
     running := s.running
     turn := s.turn
     flagged := flagged })

end ChessClocks

/-- One public Clock operation together with the wall-clock instant at which
it is invoked. -/
inductive ClockOp where
  | configure (base_ms inc_ms : Int) (turn : String) (now : Int)
  | start (turn : Option String) (now : Int)
  | pause (now : Int)
  | reset (turn : String) (now : Int)
  | on_move (moved_by : String) (now : Int)
  | snap (now : Int)
deriving DecidableEq, Repr

/-- Effect of one operation on the stored state (snapshot keeps the state). -/
def ClockOp.run (op : ClockOp) (s : ClockState) : ClockState :=
  match op with
  | .configure b i t now => ChessClocks.configure s b i t now
  | .start t now => ChessClocks.start s t now
  | .pause now => ChessClocks.pause s now
  | .reset t now => ChessClocks.reset s t now
  | .on_move m now => ChessClocks.on_move s m now
  | .snap now => (ChessClocks.snapshot s now).1

/-- Run a sequence of operations left to right. -/
def runOps (s : ClockState) (ops : List ClockOp) : ClockState :=
  ops.foldl (fun st op => op.run st) s

/-- A configure operation is well formed when its base duration and increment
are non-negative (the other operations carry no duration parameters). -/
def ClockOp.wf : ClockOp → Bool
  | .configure b i _ _ => decide (0 ≤ b) && decide (0 ≤ i)
  | _ => true

/-- Operations that C8 quantifies over: on_move, start and pause. -/
def ClockOp.isFrozenKind : ClockOp → Bool
  | .on_move _ _ => true
  | .start _ _ => true
  | .pause _ => true
  | _ => false

/-- The numeric clock invariant: non-negative configuration and remaining times. -/
def ClockInv (s : ClockState) : Prop :=
  0 ≤ s.base_ms ∧ 0 ≤ s.inc_ms ∧ 0 ≤ s.w_ms ∧ 0 ≤ s.b_ms

/-- An evaluation object produced by the analyzer: a type tag ("cp" or "mate")
and an optional integer value, mirroring the eval dict of stockfish_adapter. -/
structure EvalObj where
  type : String
  value : Option Int
deriving DecidableEq, Repr

/-- Engine identity carried inside a successful analyzer result. -/
structure EngineId where
  path : String
  version : String
deriving DecidableEq, Repr

/-- One analyze_fen result as consumed by review_pgn: the ok flag, an optional
error string, the engine identity, the optional evaluation, the optional best
move and the principal variation in SAN. -/
structure AnalysisResult where
  ok : Bool
  error : Option String
  engine : EngineId
  eval : Option EvalObj
  bestmove : Option String
  pv_san : List String
deriving DecidableEq, Repr

/-- One ply of the input as the review loop sees it: the move in UCI and SAN
(from the Rules Engine) and the two analyzer results the loop would receive
for the positions before and after the move (the analyzer oracle). -/
structure PlyInput where
  uci : String
  san : String
  before : AnalysisResult
  after : AnalysisResult
deriving DecidableEq, Repr

/-- A parsed game: the side to move at the start of the mainline and the plies. -/
structure GameInput where
  whiteToMoveFirst : Bool
  plies : List PlyInput
deriving DecidableEq, Repr

/-- MoveReview, from review/reviewer.py (dataclass MoveReview). -/
structure MoveReview where
  ply : Nat
  move_uci : String
  move_san : String
  side : String
  cp_loss : Option Int
  verdict : String
  eval_before : Option EvalObj
  eval_after : Option EvalObj
  bestmove_uci : Option String
  pv_san : List String
deriving DecidableEq, Repr

/-- The verdict counters of the aggregation step (the counts dict with its six
fixed keys Best / Good / Inaccuracy / Mistake / Blunder / Mate). -/
structure VerdictCounts where
  best : Nat
  good : Nat
  inaccuracy : Nat
  mistake : Nat
  blunder : Nat
  mate : Nat
deriving DecidableEq, Repr

/-- ReviewSummary, from review/reviewer.py. The failure branches return the
empty counts dict, modelled as `none`. -/
structure ReviewSummary where
  moves : List MoveReview
  counts : Option VerdictCounts
  accuracy_percent : Option ℚ
  engine : Option String
  ok : Bool
  error : Option String
deriving DecidableEq, Repr

/-- THRESHOLDS dict of reviewer.py. -/
def threshold_inaccuracy : Int := 50

/-- THRESHOLDS dict of reviewer.py. -/
def threshold_mistake : Int := 100

/-- THRESHOLDS dict of reviewer.py. -/
def threshold_blunder : Int := 300

/-- reviewer._cp_from_eval: the centipawn value of an evaluation, None for a
missing evaluation, a mate evaluation, or a missing value. -/
def _cp_from_eval : Option EvalObj → Option Int
  | none => none
  | some e => if e.type = "cp" then e.value else none

/-- Whether an evaluation object carries a mate marker (the condition tested
by reviewer._classify, where a present dict is truthy). -/
def isMateEval : Option EvalObj → Bool
  | none => false
  | some e => if e.type = "mate" then true else false

/-- reviewer._classify: Mate overrides everything; an undefined loss is Good;
otherwise the fixed threshold ladder on the absolute loss. -/
def _classify (cp_loss : Option Int) (before_eval after_eval : Option EvalObj) : String :=
  if isMateEval before_eval || isMateEval after_eval then "Mate"
  else
    match cp_loss with
    | none => "Good"
    | some v =>
      let loss := |v|
      if threshold_blunder ≤ loss then "Blunder"
      else if threshold_mistake ≤ loss then "Mistake"
      else if threshold_inaccuracy ≤ loss then "Inaccuracy"
      else "Good"

/-- reviewer._score_from_cp_loss: piecewise 0..1 score for accuracy; Python
floats become exact rationals. -/
def _score_from_cp_loss : Option Int → ℚ
  | none => 9/10
  | some v =>
    let x := |v|
    if x ≤ 0 then 1
    else if x ≤ 50 then 9/10
    else if x ≤ 100 then 4/5
    else if x ≤ 200 then 13/20
    else if x ≤ 300 then 1/2
    else if x ≤ 500 then 3/10
    else 1/5

/-- reviewer._pov_cp: the identity (the adapter already reports from the side
to move's point of view). -/
def _pov_cp (score : Option Int) (_side_to_move_is_white : Bool) : Option Int :=
  score

/-- The cp-loss computation of the review loop (reviewer.py lines 180-188):
invert the after evaluation to the mover's point of view and subtract; the
loss is undefined unless both centipawn values are present. -/
def cpLossOf (eval_before eval_after : Option EvalObj) : Option Int :=
  let cp_before := _cp_from_eval eval_before
  let cp_after_raw := _cp_from_eval eval_after
  let cp_after_for_mover :=
    match cp_after_raw with
    | some v => some (-v)
    | none => none
  match cp_before, cp_after_for_mover with
  | some b, some a => some (b - a)
  | _, _ => none

/-- Python `a_before.get("error") or "Engine unavailable"`: the default wins
when the stored error is absent or empty (falsy). -/
def pyOrDefault (e : Option String) (d : String) : String :=
  match e with
  | some str => if str = "" then d else str
  | none => d

/-- The failure ReviewSummary built by both abort branches of the loop (and,
with its own message, by the parse-failure branch). -/
def failureSummary (err : String) : ReviewSummary :=
  { moves := []
    counts := none
    accuracy_percent := none
    engine := none
    ok := false
    error := some err }

/-- Initial verdict counters: every category starts at zero. -/
def countsInit : VerdictCounts :=
  { best := 0, good := 0, inaccuracy := 0, mistake := 0, blunder := 0, mate := 0 }

/-- One step of the aggregation loop over moves_data: Mate always counts as
Mate; a near-zero loss on the engine's best move counts as Best; otherwise the
move counts under its verdict. -/
def countMove (c : VerdictCounts) (m : MoveReview) : VerdictCounts :=
  if m.verdict = "Mate" then { c with mate := c.mate + 1 }
  else if (match m.cp_loss with | some v => decide (|v| ≤ 10) | none => false) = true ∧
      m.bestmove_uci = some m.move_uci then
    { c with best := c.best + 1 }
  else if m.verdict = "Good" then { c with good := c.good + 1 }
  else if m.verdict = "Inaccuracy" then { c with inaccuracy := c.inaccuracy + 1 }
  else if m.verdict = "Mistake" then { c with mistake := c.mistake + 1 }
  else if m.verdict = "Blunder" then { c with blunder := c.blunder + 1 }
  else c

/-- round(x, 1) of the accuracy computation, on exact rationals. -/
def round1 (q : ℚ) : ℚ :=
  ((round (q * 10) : ℤ) : ℚ) / 10

/-- The summary construction at the end of review_pgn: verdict counts, mean
piecewise score scaled to a percentage (absent for an empty move list). -/
def finishReview (moves_data : List MoveReview) (engine_name : Option String) : ReviewSummary :=
  let counts := moves_data.foldl countMove countsInit
  let accuracy : Option ℚ :=
    if moves_data = [] then none
    else
      some (round1 ((moves_data.map (fun m => _score_from_cp_loss m.cp_loss)).sum /
        (moves_data.length : ℚ) * 100))
  { moves := moves_data
    counts := some counts
    accuracy_percent := accuracy
    engine := engine_name
    ok := true
    error := none }

/-- The per-ply loop of review_pgn. `whiteTurn` is board.turn, `ply` the
running 1-based counter, `acc` moves_data so far, `engine_name` the engine
version recorded from the latest successful before-analysis. Either analyzer
failure aborts the whole review with a failure summary. -/
def reviewLoop (whiteTurn : Bool) (ply : Nat) (plies : List PlyInput)
    (acc : List MoveReview) (engine_name : Option String) : ReviewSummary :=
  match plies with
  | [] => finishReview acc engine_name
  | p :: rest =>
    let ply1 := ply + 1
    let side := if whiteTurn then "White" else "Black"
    let a_before := p.before
    if a_before.ok = false then
      failureSummary (pyOrDefault a_before.error "Engine unavailable")
    else
      let engine_name1 := some a_before.engine.version
      let eval_before := a_before.eval
      let best_before_uci := a_before.bestmove
      let pv_san_before := a_before.pv_san
      let a_after := p.after
      if a_after.ok = false then
        failureSummary (pyOrDefault a_after.error "Engine unavailable")
      else
        let eval_after := a_after.eval
        let cp_before := _pov_cp (_cp_from_eval eval_before) (side = "White")
        let cp_after_raw := _cp_from_eval eval_after
        let cp_after_for_mover :=
          match cp_after_raw with
          | some v => some (-v)
          | none => none
        let cp_loss : Option Int :=
          match cp_before, cp_after_for_mover with
          | some b, some a => some (b - a)
          | _, _ => none
        let verdict := _classify cp_loss eval_before eval_after
        let mr : MoveReview :=
          { ply := ply1
            move_uci := p.uci
            move_san := p.san
            side := side
            cp_loss := cp_loss
            verdict := verdict
            eval_before := eval_before
            eval_after := eval_after
            bestmove_uci := best_before_uci
            pv_san := pv_san_before }
        reviewLoop (!whiteTurn) ply1 rest (acc ++ [mr]) engine_name1

/-- review_pgn: a parse failure returns the fixed failure summary; otherwise
the per-ply loop runs from the initial position with an empty accumulator. -/
def review_pgn (game : Option GameInput) : ReviewSummary :=
  match game with
  | none => failureSummary "Could not parse PGN"
  | some g => reviewLoop g.whiteToMoveFirst 0 g.plies [] none

/-- All analyzer calls of the input succeed. -/
def allOkB (plies : List PlyInput) : Bool :=
  plies.all (fun p => p.before.ok && p.after.ok)

/-- The MoveReview the loop records for one ply (closed form). -/
def mkReview (whiteTurn : Bool) (idx : Nat) (p : PlyInput) : MoveReview :=
  { ply := idx
    move_uci := p.uci
    move_san := p.san
    side := if whiteTurn then "White" else "Black"
    cp_loss := cpLossOf p.before.eval p.after.eval
    verdict := _classify (cpLossOf p.before.eval p.after.eval) p.before.eval p.after.eval
    eval_before := p.before.eval
    eval_after := p.after.eval
    bestmove_uci := p.before.bestmove
    pv_san := p.before.pv_san }

/-- The list of MoveReviews the loop records for a ply list (closed form). -/
def mkReviews (whiteTurn : Bool) (idx : Nat) : List PlyInput → List MoveReview
  | [] => []
  | p :: rest => mkReview whiteTurn (idx + 1) p :: mkReviews (!whiteTurn) (idx + 1) rest

/-- The engine name after a run of successful plies. -/
def engineAfter (engine_name : Option String) : List PlyInput → Option String
  | [] => engine_name
  | p :: rest => engineAfter (some p.before.engine.version) rest

/-- The classification ladder exactly as the specification words it: Mate
whenever either evaluation carries a mate marker; otherwise, with L the
absolute loss, Blunder for L at least 300, Mistake for L at least 100,
Inaccuracy for L at least 50, else Good; Good for an undefined loss. -/
def specVerdict (cp_loss : Option Int) (before_eval after_eval : Option EvalObj) : String :=
  if isMateEval before_eval || isMateEval after_eval then "Mate"
  else
    match cp_loss with
    | none => "Good"
    | some v =>
      if 300 ≤ |v| then "Blunder"
      else if 100 ≤ |v| then "Mistake"
      else if 50 ≤ |v| then "Inaccuracy"
      else "Good"

/-- The per-ply accuracy score exactly as the specification words it:
1.0 at 0, 0.9 up to 50, 0.8 up to 100, 0.65 up to 200, 0.5 up to 300,
0.3 up to 500, 0.2 beyond, and 0.9 for an undefined loss. -/
def specScore : Option Int → ℚ
  | none => 9/10
  | some v =>
    if |v| = 0 then 1
    else if |v| ≤ 50 then 9/10
    else if |v| ≤ 100 then 4/5
    else if |v| ≤ 200 then 13/20
    else if |v| ≤ 300 then 1/2
    else if |v| ≤ 500 then 3/10
    else 1/5

/-- Sample clock state: black to move, stopped, nobody flagged. -/
def sampleStopped : ClockState :=
  { base_ms := 300000, inc_ms := 2000, w_ms := 300000, b_ms := 250000,
    running := false, turn := "b", started_at_ms := none, flagged := none }

/-- Sample clock state: white running since instant 1000. -/
def sampleRunning : ClockState :=
  { base_ms := 300000, inc_ms := 2000, w_ms := 300000, b_ms := 250000,
    running := true, turn := "w", started_at_ms := some 1000, flagged := none }

/-- Sample clock state: white already flagged, clock paused. -/
def sampleFlagged : ClockState :=
  { base_ms := 300000, inc_ms := 2000, w_ms := 0, b_ms := 250000,
    running := false, turn := "w", started_at_ms := none, flagged := some "w" }

/-- Sample successful analysis: +20 centipawns for the side to move. -/
def sampleOkBefore : AnalysisResult :=
  { ok := true, error := none, engine := { path := "sf", version := "Stockfish 16" },
    eval := some { type := "cp", value := some 20 },
    bestmove := some "e2e4", pv_san := ["e4"] }

/-- Sample successful analysis of the post-move position: -20 centipawns for
the new side to move. -/
def sampleOkAfter : AnalysisResult :=
  { ok := true, error := none, engine := { path := "sf", version := "Stockfish 16" },
    eval := some { type := "cp", value := some (-20) },
    bestmove := some "e7e5", pv_san := ["e5"] }

/-- Sample failed analysis. -/
def sampleFail : AnalysisResult :=
  { ok := false, error := some "engine terminated", engine := { path := "", version := "" },
    eval := none, bestmove := none, pv_san := [] }

/-- Sample ply whose two analyses both succeed. -/
def samplePlyOk : PlyInput :=
  { uci := "e2e4", san := "e4", before := sampleOkBefore, after := sampleOkAfter }

/-- Sample ply whose before-analysis fails. -/
def samplePlyFail : PlyInput :=
  { uci := "e2e4", san := "e4", before := sampleFail, after := sampleOkAfter }

/-- Sample one-ply game with a successful analysis pair. -/
def sampleGameOk : GameInput :=
  { whiteToMoveFirst := true, plies := [samplePlyOk] }

/-- Sample one-ply game whose first analyzer call fails. -/
def sampleGameFail : GameInput :=
  { whiteToMoveFirst := true, plies := [samplePlyFail] }

theorem apply_elapsed_fields (s : ClockState) (now : Int) :
    (ChessClocks._apply_elapsed s now).running = s.running ∧
    (ChessClocks._apply_elapsed s now).base_ms = s.base_ms ∧
    (ChessClocks._apply_elapsed s now).inc_ms = s.inc_ms ∧
    (ChessClocks._apply_elapsed s now).turn = s.turn := by
  unfold ChessClocks._apply_elapsed
  split
  · exact ⟨rfl, rfl, rfl, rfl⟩
  · split
    · exact ⟨rfl, rfl, rfl, rfl⟩
    · dsimp only
      split <;> split <;> exact ⟨rfl, rfl, rfl, rfl⟩

theorem inv_apply_elapsed {s : ClockState} (now : Int) (h : ClockInv s) :
    ClockInv (ChessClocks._apply_elapsed s now) := by
  obtain ⟨h1, h2, h3, h4⟩ := h
  unfold ChessClocks._apply_elapsed
  split
  · exact ⟨h1, h2, h3, h4⟩
  · split
    · exact ⟨h1, h2, h3, h4⟩
    · dsimp only
      split <;> split <;> exact ⟨h1, h2, by dsimp only; omega, by dsimp only; omega⟩

theorem start_fields (s : ClockState) (turn : Option String) (now : Int) :
    (ChessClocks.start s turn now).base_ms = s.base_ms ∧
    (ChessClocks.start s turn now).inc_ms = s.inc_ms ∧
    (ChessClocks.start s turn now).w_ms = s.w_ms ∧
    (ChessClocks.start s turn now).b_ms = s.b_ms ∧
    (ChessClocks.start s turn now).flagged = s.flagged := by
  rcases turn with _ | t <;>
    simp only [ChessClocks.start] <;>
    split_ifs <;>
    exact ⟨rfl, rfl, rfl, rfl, rfl⟩

theorem inv_start {s : ClockState} (turn : Option String) (now : Int) (h : ClockInv s) :
    ClockInv (ChessClocks.start s turn now) := by
  obtain ⟨f1, f2, f3, f4, _⟩ := start_fields s turn now
  exact ⟨f1 ▸ h.1, f2 ▸ h.2.1, f3 ▸ h.2.2.1, f4 ▸ h.2.2.2⟩

theorem inv_pause {s : ClockState} (now : Int) (h : ClockInv s) :
    ClockInv (ChessClocks.pause s now) := by
  unfold ChessClocks.pause
  split
  · exact h
  · have h2 := inv_apply_elapsed now h
    exact ⟨h2.1, h2.2.1, h2.2.2.1, h2.2.2.2⟩

theorem inv_reset {s : ClockState} (turn : String) (now : Int) (h : ClockInv s) :
    ClockInv (ChessClocks.reset s turn now) := by
  have hp := inv_pause now h
  unfold ChessClocks.reset
  exact ⟨hp.1, hp.2.1, hp.1, hp.1⟩

theorem inv_configure {s : ClockState} {base_ms inc_ms : Int} (turn : String) (now : Int)
    (hb : 0 ≤ base_ms) (hi : 0 ≤ inc_ms) :
    ClockInv (ChessClocks.configure s base_ms inc_ms turn now) := by
  unfold ChessClocks.configure
  dsimp only
  split
  · exact inv_start (some turn) now ⟨hb, hi, hb, hb⟩
  · exact ⟨hb, hi, hb, hb⟩

theorem commitIfRunning_fields (s : ClockState) (now : Int) :
    (ChessClocks.commitIfRunning s now).running = s.running ∧
    (ChessClocks.commitIfRunning s now).base_ms = s.base_ms ∧
    (ChessClocks.commitIfRunning s now).inc_ms = s.inc_ms ∧
    (ChessClocks.commitIfRunning s now).turn = s.turn := by
  unfold ChessClocks.commitIfRunning
  split
  · exact apply_elapsed_fields s now
  · exact ⟨rfl, rfl, rfl, rfl⟩

theorem inv_commitIfRunning {s : ClockState} (now : Int) (h : ClockInv s) :
    ClockInv (ChessClocks.commitIfRunning s now) := by
  unfold ChessClocks.commitIfRunning
  split
  · exact inv_apply_elapsed now h
  · exact h

theorem inv_moveCore {s1 : ClockState} (moved_by : String) (now : Int) (h : ClockInv s1) :
    ClockInv (ChessClocks.moveCore s1 moved_by now) := by
  obtain ⟨h11, h12, h13, h14⟩ := h
  unfold ChessClocks.moveCore
  dsimp only
  split_ifs <;> exact ⟨h11, h12, by dsimp only; omega, by dsimp only; omega⟩

theorem inv_on_move {s : ClockState} (moved_by : String) (now : Int) (h : ClockInv s) :
    ClockInv (ChessClocks.on_move s moved_by now) := by
  unfold ChessClocks.on_move
  split
  · exact h
  · exact inv_moveCore moved_by now (inv_commitIfRunning now h)

theorem inv_snap {s : ClockState} (now : Int) (h : ClockInv s) :
    ClockInv (ChessClocks.snapshot s now).1 := h

theorem inv_run {s : ClockState} (op : ClockOp) (hop : op.wf = true) (h : ClockInv s) :
    ClockInv (op.run s) := by
  cases op with
  | configure b i t now =>
    simp only [ClockOp.wf, Bool.and_eq_true, decide_eq_true_eq] at hop
    exact inv_configure t now hop.1 hop.2
  | start t now => exact inv_start t now h
  | pause now => exact inv_pause now h
  | reset t now => exact inv_reset t now h
  | on_move m now => exact inv_on_move m now h
  | snap now => exact inv_snap now h

theorem inv_runOps {s : ClockState} (ops : List ClockOp) (hops : ops.all ClockOp.wf = true)
    (h : ClockInv s) : ClockInv (runOps s ops) := by
  induction ops generalizing s with
  | nil => exact h
  | cons op rest ih =>
    simp only [List.all_cons, Bool.and_eq_true] at hops
    exact ih hops.2 (inv_run op hops.1 h)

theorem inv_init {base_ms inc_ms : Int} (turn : String) (hb : 0 ≤ base_ms) (hi : 0 ≤ inc_ms) :
    ClockInv (ChessClocks.init base_ms inc_ms turn) :=
  ⟨hb, hi, hb, hb⟩

theorem snapshot_view_nonneg {s : ClockState} (now : Int) (h : ClockInv s) :
    0 ≤ (ChessClocks.snapshot s now).2.w_ms ∧ 0 ≤ (ChessClocks.snapshot s now).2.b_ms := by
  obtain ⟨h1, h2, h3, h4⟩ := h
  unfold ChessClocks.snapshot
  dsimp only
  split
  · split
    · split <;> constructor <;> simp <;> omega
    · exact ⟨h3, h4⟩
  · exact ⟨h3, h4⟩

theorem runOps_cons (s : ClockState) (op : ClockOp) (ops : List ClockOp) :
    runOps s (op :: ops) = runOps (op.run s) ops := rfl

theorem truthy_of_flag {s : ClockState} (hf : s.flagged = some "w" ∨ s.flagged = some "b") :
    truthy s.flagged = true := by
  rcases hf with h | h <;> simp [h, truthy]

theorem apply_elapsed_of_flag {s : ClockState} (now : Int)
    (ht : truthy s.flagged = true) : ChessClocks._apply_elapsed s now = s := by
  unfold ChessClocks._apply_elapsed
  rw [if_pos (Or.inr (Or.inr ht))]

theorem pause_fields (s : ClockState) (now : Int) :
    (ChessClocks.pause s now).base_ms = s.base_ms ∧
    (ChessClocks.pause s now).inc_ms = s.inc_ms ∧
    (ChessClocks.pause s now).turn = s.turn := by
  unfold ChessClocks.pause
  split
  · exact ⟨rfl, rfl, rfl⟩
  · have h := apply_elapsed_fields s now
    exact ⟨h.2.1, h.2.2.1, h.2.2.2⟩

theorem frozen_run {s : ClockState} (op : ClockOp) (hop : op.isFrozenKind = true)
    (hf : s.flagged = some "w" ∨ s.flagged = some "b") :
    (op.run s).w_ms = s.w_ms ∧ (op.run s).b_ms = s.b_ms ∧ (op.run s).flagged = s.flagged := by
  have ht := truthy_of_flag hf
  cases op with
  | on_move m now => simp [ClockOp.run, ChessClocks.on_move, ht]
  | start t now =>
    have h := start_fields s t now
    exact ⟨h.2.2.1, h.2.2.2.1, h.2.2.2.2⟩
  | pause now =>
    simp only [ClockOp.run, ChessClocks.pause]
    split
    · exact ⟨rfl, rfl, rfl⟩
    · simp [apply_elapsed_of_flag now ht]
  | configure b i t now => simp [ClockOp.isFrozenKind] at hop
  | reset t now => simp [ClockOp.isFrozenKind] at hop
  | snap now => simp [ClockOp.isFrozenKind] at hop

theorem frozen_runOps {s : ClockState} (ops : List ClockOp)
    (hops : ops.all ClockOp.isFrozenKind = true)
    (hf : s.flagged = some "w" ∨ s.flagged = some "b") :
    (runOps s ops).w_ms = s.w_ms ∧ (runOps s ops).b_ms = s.b_ms ∧
    (runOps s ops).flagged = s.flagged := by
  induction ops generalizing s with
  | nil => exact ⟨rfl, rfl, rfl⟩
  | cons op rest ih =>
    simp only [List.all_cons, Bool.and_eq_true] at hops
    have h1 := frozen_run op hops.1 hf
    have hf2 : (op.run s).flagged = some "w" ∨ (op.run s).flagged = some "b" := by
      rw [h1.2.2]; exact hf
    have h2 := ih hops.2 hf2
    rw [runOps_cons]
    exact ⟨h2.1.trans h1.1, h2.2.1.trans h1.2.1, h2.2.2.trans h1.2.2⟩

/-- C1: for every operation sequence with non-negative base duration and
non-negative increment (at construction and at every configure), the stored
remaining time of each side stays non-negative, and the remaining times a
snapshot reports are non-negative as well. -/
theorem clock_remaining_nonneg (base_ms inc_ms : Int) (turn : String) (ops : List ClockOp)
    (now : Int) (hb : 0 ≤ base_ms) (hi : 0 ≤ inc_ms) (hops : ops.all ClockOp.wf = true) :
    0 ≤ (runOps (ChessClocks.init base_ms inc_ms turn) ops).w_ms ∧
    0 ≤ (runOps (ChessClocks.init base_ms inc_ms turn) ops).b_ms ∧
    0 ≤ (ChessClocks.snapshot (runOps (ChessClocks.init base_ms inc_ms turn) ops) now).2.w_ms ∧
    0 ≤ (ChessClocks.snapshot (runOps (ChessClocks.init base_ms inc_ms turn) ops) now).2.b_ms := by
  have h := inv_runOps ops hops (inv_init turn hb hi)
  have hs := snapshot_view_nonneg now h
  exact ⟨h.2.2.1, h.2.2.2, hs.1, hs.2⟩

theorem clock_remaining_nonneg_witness :
    0 ≤ (300000 : Int) ∧ 0 ≤ (2000 : Int) ∧
    ([ClockOp.start (some "w") 0, ClockOp.on_move "w" 12000,
      ClockOp.pause 400000].all ClockOp.wf = true) ∧
    (0 ≤ (runOps (ChessClocks.init 300000 2000 "w")
        [ClockOp.start (some "w") 0, ClockOp.on_move "w" 12000, ClockOp.pause 400000]).w_ms ∧
     0 ≤ (runOps (ChessClocks.init 300000 2000 "w")
        [ClockOp.start (some "w") 0, ClockOp.on_move "w" 12000, ClockOp.pause 400000]).b_ms ∧
     0 ≤ (ChessClocks.snapshot (runOps (ChessClocks.init 300000 2000 "w")
        [ClockOp.start (some "w") 0, ClockOp.on_move "w" 12000, ClockOp.pause 400000])
        500000).2.w_ms ∧
     0 ≤ (ChessClocks.snapshot (runOps (ChessClocks.init 300000 2000 "w")
        [ClockOp.start (some "w") 0, ClockOp.on_move "w" 12000, ClockOp.pause 400000])
        500000).2.b_ms) :=
  ⟨by decide, by decide, by decide,
   clock_remaining_nonneg 300000 2000 "w"
     [ClockOp.start (some "w") 0, ClockOp.on_move "w" 12000, ClockOp.pause 400000]
     500000 (by decide) (by decide) (by decide)⟩

/-- C9: snapshot never mutates the stored state: the persisted state after a
snapshot is the input state, a second snapshot at the same instant returns the
same view, and a subsequent pause accounts exactly as if no snapshot had
happened. -/
theorem snapshot_preserves_state (s : ClockState) (now now2 : Int) :
    (ChessClocks.snapshot s now).1 = s ∧
    (ChessClocks.snapshot (ChessClocks.snapshot s now).1 now).2 = (ChessClocks.snapshot s now).2 ∧
    ChessClocks.pause (ChessClocks.snapshot s now).1 now2 = ChessClocks.pause s now2 :=
  ⟨rfl, rfl, rfl⟩

/-- C10: while a side is flagged, start with a valid token still updates
active_side (the token is applied before the flagged check) and changes
nothing else; start with no token or an invalid token changes nothing. -/
theorem start_when_flagged (s : ClockState) (tok : String) (now : Int)
    (hf : truthy s.flagged = true) :
    ChessClocks.start s (some tok) now =
      (if tok = "w" ∨ tok = "b" then { s with turn := tok } else s) ∧
    ChessClocks.start s none now = s := by
  constructor
  · unfold ChessClocks.start
    dsimp only
    split_ifs <;> simp_all
  · unfold ChessClocks.start
    dsimp only
    rw [if_pos hf]

theorem start_when_flagged_witness :
    truthy sampleFlagged.flagged = true ∧
    (ChessClocks.start sampleFlagged (some "b") 5 =
      (if "b" = "w" ∨ "b" = "b" then { sampleFlagged with turn := "b" } else sampleFlagged) ∧
     ChessClocks.start sampleFlagged none 5 = sampleFlagged) :=
  ⟨by decide, start_when_flagged sampleFlagged "b" 5 (by decide)⟩

/-- C8: from a flagged state, any sequence of on_move, start and pause calls
leaves both remaining times and the flag unchanged; reset and configure clear
the flag and restore both remaining times to the (current, respectively new)
base duration. -/
theorem flagged_state_frozen (s : ClockState)
    (hf : s.flagged = some "w" ∨ s.flagged = some "b")
    (ops : List ClockOp) (hops : ops.all ClockOp.isFrozenKind = true) :
    ((runOps s ops).w_ms = s.w_ms ∧ (runOps s ops).b_ms = s.b_ms ∧
      (runOps s ops).flagged = s.flagged) ∧
    (∀ (t : String) (now : Int),
      (ChessClocks.reset s t now).flagged = none ∧
      (ChessClocks.reset s t now).w_ms = s.base_ms ∧
      (ChessClocks.reset s t now).b_ms = s.base_ms) ∧
    (∀ (b i : Int) (t : String) (now : Int),
      (ChessClocks.configure s b i t now).flagged = none ∧
      (ChessClocks.configure s b i t now).w_ms = b ∧
      (ChessClocks.configure s b i t now).b_ms = b) := by
  refine ⟨frozen_runOps ops hops hf, ?_, ?_⟩
  · intro t now
    have hp := pause_fields s now
    unfold ChessClocks.reset
    exact ⟨rfl, hp.1, hp.1⟩
  · intro b i t now
    unfold ChessClocks.configure
    dsimp only
    split
    · have h := start_fields
        { base_ms := b, inc_ms := i, w_ms := b, b_ms := b, running := false,
          turn := t, started_at_ms := none, flagged := none } (some t) now
      exact ⟨h.2.2.2.2, h.2.2.1, h.2.2.2.1⟩
    · exact ⟨rfl, rfl, rfl⟩

theorem flagged_state_frozen_witness :
    (sampleFlagged.flagged = some "w" ∨ sampleFlagged.flagged = some "b") ∧
    ([ClockOp.on_move "b" 100, ClockOp.start (some "b") 200,
      ClockOp.pause 300].all ClockOp.isFrozenKind = true) ∧
    (((runOps sampleFlagged [ClockOp.on_move "b" 100, ClockOp.start (some "b") 200,
        ClockOp.pause 300]).w_ms = sampleFlagged.w_ms ∧
      (runOps sampleFlagged [ClockOp.on_move "b" 100, ClockOp.start (some "b") 200,
        ClockOp.pause 300]).b_ms = sampleFlagged.b_ms ∧
      (runOps sampleFlagged [ClockOp.on_move "b" 100, ClockOp.start (some "b") 200,
        ClockOp.pause 300]).flagged = sampleFlagged.flagged) ∧
     (∀ (t : String) (now : Int),
       (ChessClocks.reset sampleFlagged t now).flagged = none ∧
       (ChessClocks.reset sampleFlagged t now).w_ms = sampleFlagged.base_ms ∧
       (ChessClocks.reset sampleFlagged t now).b_ms = sampleFlagged.base_ms) ∧
     (∀ (b i : Int) (t : String) (now : Int),
       (ChessClocks.configure sampleFlagged b i t now).flagged = none ∧
       (ChessClocks.configure sampleFlagged b i t now).w_ms = b ∧
       (ChessClocks.configure sampleFlagged b i t now).b_ms = b)) :=
  ⟨Or.inl (by decide), by decide,
   flagged_state_frozen sampleFlagged (Or.inl (by decide))
     [ClockOp.on_move "b" 100, ClockOp.start (some "b") 200, ClockOp.pause 300]
     (by decide)⟩

theorem pause_eq_commit (s : ClockState) (now : Int) :
    (ChessClocks.pause s now).w_ms = (ChessClocks.commitIfRunning s now).w_ms ∧
    (ChessClocks.pause s now).b_ms = (ChessClocks.commitIfRunning s now).b_ms ∧
    (ChessClocks.pause s now).flagged = (ChessClocks.commitIfRunning s now).flagged := by
  unfold ChessClocks.pause ChessClocks.commitIfRunning
  rcases hr : s.running <;> simp [hr]

/-- C3 counterexample: the claim says an invalid side token is a no-op for
that argument, in particular active_side is unchanged; but on a stopped,
unflagged state with black to move, on_move with the unknown token "x" sets
active_side to "w" and restarts the timer. -/
theorem on_move_invalid_token_counterexample :
    sampleStopped.turn = "b" ∧ sampleStopped.flagged = none ∧
    sampleStopped.running = false ∧
    (ChessClocks.on_move sampleStopped "x" 7).turn = "w" ∧
    (ChessClocks.on_move sampleStopped "x" 7).running = true := by decide

/-- C3 (amended): a Clock state with an invalid side token passed to on_move
skips the increment for that token, but the turn flip still runs: if flagged
the call is a complete no-op, otherwise it commits elapsed time as usual, sets
active_side to "w" (every token other than "w" is treated as the second side)
and restarts the timer when the committed state is still unflagged; no Clock
operation raises (every operation is a total function of the state). -/
theorem on_move_invalid_token_behavior (s : ClockState) (tok : String) (now : Int)
    (ht : ¬(tok = "w" ∨ tok = "b")) :
    (truthy s.flagged = true → ChessClocks.on_move s tok now = s) ∧
    (truthy s.flagged = false →
      ChessClocks.on_move s tok now =
        (if truthy (ChessClocks.commitIfRunning s now).flagged = false then
          { (ChessClocks.commitIfRunning s now) with
            turn := "w"
            started_at_ms := some now
            running := true }
         else { (ChessClocks.commitIfRunning s now) with turn := "w" })) := by
  push_neg at ht
  constructor
  · intro hf
    unfold ChessClocks.on_move
    rw [if_pos hf]
  · intro hf
    have hW : ¬(tok = "w" ∧ 0 < (ChessClocks.commitIfRunning s now).w_ms) :=
      fun hx => ht.1 hx.1
    have hB : ¬(tok = "b" ∧ 0 < (ChessClocks.commitIfRunning s now).b_ms) :=
      fun hx => ht.2 hx.1
    unfold ChessClocks.on_move ChessClocks.moveCore
    rw [if_neg (by rw [hf]; exact Bool.false_ne_true)]
    dsimp only
    rw [if_neg hW, if_neg hB, if_neg ht.1]

theorem on_move_invalid_token_behavior_witness :
    ¬(("x" : String) = "w" ∨ ("x" : String) = "b") ∧
    truthy sampleStopped.flagged = false ∧
    ChessClocks.on_move sampleStopped "x" 7 =
      (if truthy (ChessClocks.commitIfRunning sampleStopped 7).flagged = false then
        { (ChessClocks.commitIfRunning sampleStopped 7) with
          turn := "w"
          started_at_ms := some 7
          running := true }
       else { (ChessClocks.commitIfRunning sampleStopped 7) with turn := "w" }) :=
  ⟨by decide, by decide,
   (on_move_invalid_token_behavior sampleStopped "x" 7 (by decide)).2 (by decide)⟩

theorem moveCore_w (c : ClockState) (now : Int) :
    (ChessClocks.moveCore c "w" now).w_ms =
      c.w_ms + (if 0 < c.w_ms then c.inc_ms else 0) ∧
    (ChessClocks.moveCore c "w" now).b_ms = c.b_ms ∧
    (ChessClocks.moveCore c "w" now).turn = "b" ∧
    (ChessClocks.moveCore c "w" now).flagged = c.flagged ∧
    (truthy c.flagged = false →
      (ChessClocks.moveCore c "w" now).running = true ∧
      (ChessClocks.moveCore c "w" now).started_at_ms = some now) ∧
    (truthy c.flagged = true →
      (ChessClocks.moveCore c "w" now).running = c.running ∧
      (ChessClocks.moveCore c "w" now).started_at_ms = c.started_at_ms) := by
  obtain ⟨cb, ci, cw, cbm, cr, ct, cs, cf⟩ := c
  simp only [ChessClocks.moveCore]
  split_ifs <;> simp_all

theorem moveCore_b (c : ClockState) (now : Int) :
    (ChessClocks.moveCore c "b" now).b_ms =
      c.b_ms + (if 0 < c.b_ms then c.inc_ms else 0) ∧
    (ChessClocks.moveCore c "b" now).w_ms = c.w_ms ∧
    (ChessClocks.moveCore c "b" now).turn = "w" ∧
    (ChessClocks.moveCore c "b" now).flagged = c.flagged ∧
    (truthy c.flagged = false →
      (ChessClocks.moveCore c "b" now).running = true ∧
      (ChessClocks.moveCore c "b" now).started_at_ms = some now) ∧
    (truthy c.flagged = true →
      (ChessClocks.moveCore c "b" now).running = c.running ∧
      (ChessClocks.moveCore c "b" now).started_at_ms = c.started_at_ms) := by
  obtain ⟨cb, ci, cw, cbm, cr, ct, cs, cf⟩ := c
  simp only [ChessClocks.moveCore]
  split_ifs <;> simp_all

/-- C4: for an unflagged state, on_move commits elapsed time exactly as pause
would (same remaining times and same flag after the commit) without clearing
running, adds the increment to the mover's remaining time exactly when that
time is positive after the commit, flips active_side to the mover's opponent,
and restarts the timer (run_started_at = now, running = true) when the commit
left no flag; a flagged state makes on_move a complete no-op. -/
theorem on_move_commit_increment_flip (s : ClockState) (mover : String) (now : Int)
    (hm : mover = "w" ∨ mover = "b") :
    (truthy s.flagged = true → ChessClocks.on_move s mover now = s) ∧
    (truthy s.flagged = false →
      ((ChessClocks.pause s now).w_ms = (ChessClocks.commitIfRunning s now).w_ms ∧
       (ChessClocks.pause s now).b_ms = (ChessClocks.commitIfRunning s now).b_ms ∧
       (ChessClocks.pause s now).flagged = (ChessClocks.commitIfRunning s now).flagged ∧
       (ChessClocks.commitIfRunning s now).running = s.running) ∧
      (mover = "w" →
        (ChessClocks.on_move s mover now).w_ms =
          (ChessClocks.commitIfRunning s now).w_ms +
            (if 0 < (ChessClocks.commitIfRunning s now).w_ms then s.inc_ms else 0) ∧
        (ChessClocks.on_move s mover now).b_ms = (ChessClocks.commitIfRunning s now).b_ms) ∧
      (mover = "b" →
        (ChessClocks.on_move s mover now).b_ms =
          (ChessClocks.commitIfRunning s now).b_ms +
            (if 0 < (ChessClocks.commitIfRunning s now).b_ms then s.inc_ms else 0) ∧
        (ChessClocks.on_move s mover now).w_ms = (ChessClocks.commitIfRunning s now).w_ms) ∧
      (ChessClocks.on_move s mover now).turn = (if mover = "w" then "b" else "w") ∧
      (ChessClocks.on_move s mover now).flagged = (ChessClocks.commitIfRunning s now).flagged ∧
      (truthy (ChessClocks.commitIfRunning s now).flagged = false →
        (ChessClocks.on_move s mover now).running = true ∧
        (ChessClocks.on_move s mover now).started_at_ms = some now) ∧
      (truthy (ChessClocks.commitIfRunning s now).flagged = true →
        (ChessClocks.on_move s mover now).running = (ChessClocks.commitIfRunning s now).running ∧
        (ChessClocks.on_move s mover now).started_at_ms =
          (ChessClocks.commitIfRunning s now).started_at_ms)) := by
  have hinc := (commitIfRunning_fields s now).2.2.1
  constructor
  · intro hf
    unfold ChessClocks.on_move
    rw [if_pos hf]
  · intro hf
    have hrun : ChessClocks.on_move s mover now =
        ChessClocks.moveCore (ChessClocks.commitIfRunning s now) mover now := by
      unfold ChessClocks.on_move
      rw [if_neg (by rw [hf]; exact Bool.false_ne_true)]
    refine ⟨⟨(pause_eq_commit s now).1, (pause_eq_commit s now).2.1,
      (pause_eq_commit s now).2.2, (commitIfRunning_fields s now).1⟩, ?_, ?_, ?_, ?_, ?_, ?_⟩
    · intro hw
      subst hw
      have h := moveCore_w (ChessClocks.commitIfRunning s now) now
      rw [hrun, hinc] at *
      exact ⟨h.1, h.2.1⟩
    · intro hb
      subst hb
      have h := moveCore_b (ChessClocks.commitIfRunning s now) now
      rw [hrun, hinc] at *
      exact ⟨h.1, h.2.1⟩
    · rcases hm with hw | hb
      · subst hw
        rw [hrun, if_pos rfl]
        exact (moveCore_w (ChessClocks.commitIfRunning s now) now).2.2.1
      · subst hb
        rw [hrun, if_neg (by decide : ¬("b" : String) = "w")]
        exact (moveCore_b (ChessClocks.commitIfRunning s now) now).2.2.1
    · rcases hm with hw | hb
      · subst hw
        rw [hrun]
        exact (moveCore_w (ChessClocks.commitIfRunning s now) now).2.2.2.1
      · subst hb
        rw [hrun]
        exact (moveCore_b (ChessClocks.commitIfRunning s now) now).2.2.2.1
    · intro hfc
      rcases hm with hw | hb
      · subst hw
        rw [hrun]
        exact (moveCore_w (ChessClocks.commitIfRunning s now) now).2.2.2.2.1 hfc
      · subst hb
        rw [hrun]
        exact (moveCore_b (ChessClocks.commitIfRunning s now) now).2.2.2.2.1 hfc
    · intro hfc
      rcases hm with hw | hb
      · subst hw
        rw [hrun]
        exact (moveCore_w (ChessClocks.commitIfRunning s now) now).2.2.2.2.2 hfc
      · subst hb
        rw [hrun]
        exact (moveCore_b (ChessClocks.commitIfRunning s now) now).2.2.2.2.2 hfc

theorem on_move_commit_increment_flip_witness :
    (("w" : String) = "w" ∨ ("w" : String) = "b") ∧
    truthy sampleRunning.flagged = false ∧
    (ChessClocks.on_move sampleRunning "w" 13000).turn =
      (if ("w" : String) = "w" then "b" else "w") ∧
    (ChessClocks.on_move sampleRunning "w" 13000).w_ms =
      (ChessClocks.commitIfRunning sampleRunning 13000).w_ms +
        (if 0 < (ChessClocks.commitIfRunning sampleRunning 13000).w_ms then
          sampleRunning.inc_ms else 0) :=
  ⟨Or.inl rfl, by decide,
   ((on_move_commit_increment_flip sampleRunning "w" 13000 (Or.inl rfl)).2
     (by decide)).2.2.2.1,
   (((on_move_commit_increment_flip sampleRunning "w" 13000 (Or.inl rfl)).2
     (by decide)).2.1 rfl).1⟩

theorem finishReview_moves (moves_data : List MoveReview) (engine_name : Option String) :
    (finishReview moves_data engine_name).moves = moves_data ∧
    (finishReview moves_data engine_name).ok = true ∧
    (finishReview moves_data engine_name).error = none ∧
    (finishReview moves_data engine_name).engine = engine_name :=
  ⟨rfl, rfl, rfl, rfl⟩

theorem finishReview_accuracy (moves_data : List MoveReview) (engine_name : Option String) :
    (finishReview moves_data engine_name).accuracy_percent =
      (if moves_data = [] then none
       else some (round1 ((moves_data.map (fun m => _score_from_cp_loss m.cp_loss)).sum /
         (moves_data.length : ℚ) * 100))) := rfl

theorem mkReviews_length (plies : List PlyInput) :
    ∀ (whiteTurn : Bool) (idx : Nat), (mkReviews whiteTurn idx plies).length = plies.length := by
  induction plies with
  | nil => intro wt idx; rfl
  | cons p rest ih =>
    intro wt idx
    simp only [mkReviews, List.length_cons, ih]

theorem mkReviews_cp_loss (plies : List PlyInput) :
    ∀ (whiteTurn : Bool) (idx : Nat),
      (mkReviews whiteTurn idx plies).map (fun m => m.cp_loss) =
        plies.map (fun p => cpLossOf p.before.eval p.after.eval) := by
  induction plies with
  | nil => intro wt idx; rfl
  | cons p rest ih =>
    intro wt idx
    simp only [mkReviews, List.map_cons, ih, mkReview]

theorem mkReviews_verdict (plies : List PlyInput) :
    ∀ (whiteTurn : Bool) (idx : Nat),
      (mkReviews whiteTurn idx plies).map (fun m => m.verdict) =
        plies.map (fun p =>
          _classify (cpLossOf p.before.eval p.after.eval) p.before.eval p.after.eval) := by
  induction plies with
  | nil => intro wt idx; rfl
  | cons p rest ih =>
    intro wt idx
    simp only [mkReviews, List.map_cons, ih, mkReview]

theorem reviewLoop_allOk (plies : List PlyInput) (h : allOkB plies = true) :
    ∀ (whiteTurn : Bool) (ply : Nat) (acc : List MoveReview) (engine_name : Option String),
      reviewLoop whiteTurn ply plies acc engine_name =
        finishReview (acc ++ mkReviews whiteTurn ply plies) (engineAfter engine_name plies) := by
  induction plies with
  | nil =>
    intro wt n acc en
    simp [reviewLoop, mkReviews, engineAfter]
  | cons p rest ih =>
    simp only [allOkB, List.all_cons, Bool.and_eq_true] at h
    obtain ⟨⟨hb, ha⟩, hrest⟩ := h
    intro wt n acc en
    simp only [reviewLoop, hb, ha, Bool.true_eq_false, if_false, mkReviews, engineAfter]
    rw [ih hrest]
    simp [mkReview, List.append_assoc, cpLossOf, _pov_cp]

theorem pyOrDefault_ne_empty (e : Option String) (d : String) (hd : d ≠ "") :
    pyOrDefault e d ≠ "" := by
  cases e with
  | none => exact hd
  | some str =>
    show (if str = "" then d else str) ≠ ""
    split_ifs with h
    · exact hd
    · exact h

theorem reviewLoop_fail (plies : List PlyInput) (h : allOkB plies = false) :
    ∀ (whiteTurn : Bool) (ply : Nat) (acc : List MoveReview) (engine_name : Option String),
      ∃ err, reviewLoop whiteTurn ply plies acc engine_name = failureSummary err ∧ err ≠ "" := by
  induction plies with
  | nil => simp [allOkB] at h
  | cons p rest ih =>
    intro wt n acc en
    cases hb : p.before.ok with
    | false =>
      refine ⟨pyOrDefault p.before.error "Engine unavailable", ?_,
        pyOrDefault_ne_empty _ _ (by decide)⟩
      simp [reviewLoop, hb]
    | true =>
      cases ha : p.after.ok with
      | false =>
        refine ⟨pyOrDefault p.after.error "Engine unavailable", ?_,
          pyOrDefault_ne_empty _ _ (by decide)⟩
        simp [reviewLoop, hb, ha]
      | true =>
        have hrest : allOkB rest = false := by
          simp only [allOkB, List.all_cons, hb, ha, Bool.and_self, Bool.true_and] at h
          exact h
        simp only [reviewLoop, hb, ha, Bool.true_eq_false, if_false]
        exact ih hrest _ _ _ _

/-- C2: an analyzer failure at any ply makes review_pgn return ok = false with
an empty move list, no accuracy and a non-empty error string (never a partial
list); when every analyzer call succeeds it returns ok = true with exactly one
MoveReview per ply. -/
theorem review_all_or_nothing (g : GameInput) :
    (allOkB g.plies = true →
      (review_pgn (some g)).ok = true ∧
      (review_pgn (some g)).error = none ∧
      (review_pgn (some g)).moves.length = g.plies.length) ∧
    (allOkB g.plies = false →
      (review_pgn (some g)).ok = false ∧
      (review_pgn (some g)).moves = [] ∧
      (review_pgn (some g)).accuracy_percent = none ∧
      ∃ err, (review_pgn (some g)).error = some err ∧ err ≠ "") := by
  obtain ⟨wt, plies⟩ := g
  constructor
  · intro hok
    show (reviewLoop wt 0 plies [] none).ok = true ∧
      (reviewLoop wt 0 plies [] none).error = none ∧
      (reviewLoop wt 0 plies [] none).moves.length = plies.length
    rw [reviewLoop_allOk plies hok wt 0 [] none]
    refine ⟨rfl, rfl, ?_⟩
    show (([] : List MoveReview) ++ mkReviews wt 0 plies).length = plies.length
    rw [List.nil_append, mkReviews_length plies wt 0]
  · intro hfail
    obtain ⟨err, he, hne⟩ := reviewLoop_fail plies hfail wt 0 [] none
    have hrp : review_pgn (some { whiteToMoveFirst := wt, plies := plies }) =
        failureSummary err := he
    rw [hrp]
    exact ⟨rfl, rfl, rfl, err, rfl, hne⟩

theorem review_all_or_nothing_witness :
    (allOkB sampleGameOk.plies = true ∧
      ((review_pgn (some sampleGameOk)).ok = true ∧
       (review_pgn (some sampleGameOk)).error = none ∧
       (review_pgn (some sampleGameOk)).moves.length = sampleGameOk.plies.length)) ∧
    (allOkB sampleGameFail.plies = false ∧
      ((review_pgn (some sampleGameFail)).ok = false ∧
       (review_pgn (some sampleGameFail)).moves = [] ∧
       (review_pgn (some sampleGameFail)).accuracy_percent = none ∧
       ∃ err, (review_pgn (some sampleGameFail)).error = some err ∧ err ≠ "")) :=
  ⟨⟨by decide, (review_all_or_nothing sampleGameOk).1 (by decide)⟩,
   ⟨by decide, (review_all_or_nothing sampleGameFail).2 (by decide)⟩⟩

theorem isMate_cp_none {e : Option EvalObj} (h : isMateEval e = true) :
    _cp_from_eval e = none := by
  cases e with
  | none => rfl
  | some ev =>
    simp only [isMateEval] at h
    split_ifs at h with hm
    simp [_cp_from_eval, hm]

/-- C5: when both evaluations are plain centipawn values, the recorded cp_loss
is cp_before minus the negated cp_after; whenever either evaluation carries a
mate marker or lacks a centipawn value, cp_loss stays undefined; and the
pipeline records exactly this value on every reviewed ply. -/
theorem cp_loss_formula :
    (∀ vb va : Int,
      cpLossOf (some { type := "cp", value := some vb })
        (some { type := "cp", value := some va }) = some (vb - (-va))) ∧
    (∀ eb ea : Option EvalObj,
      (isMateEval eb = true ∨ isMateEval ea = true ∨
        _cp_from_eval eb = none ∨ _cp_from_eval ea = none) →
      cpLossOf eb ea = none) ∧
    (∀ (wt : Bool) (plies : List PlyInput), allOkB plies = true →
      (review_pgn (some { whiteToMoveFirst := wt, plies := plies })).moves.map
          (fun m => m.cp_loss) =
        plies.map (fun p => cpLossOf p.before.eval p.after.eval)) := by
  refine ⟨fun vb va => rfl, ?_, ?_⟩
  · intro eb ea h
    have hnone : _cp_from_eval eb = none ∨ _cp_from_eval ea = none := by
      rcases h with h | h | h | h
      · exact Or.inl (isMate_cp_none h)
      · exact Or.inr (isMate_cp_none h)
      · exact Or.inl h
      · exact Or.inr h
    rcases hnone with h1 | h1
    · rcases hca : _cp_from_eval ea with _ | va <;> simp [cpLossOf, h1, hca]
    · rcases hcb : _cp_from_eval eb with _ | vb <;> simp [cpLossOf, h1, hcb]
  · intro wt plies hok
    show (reviewLoop wt 0 plies [] none).moves.map (fun m => m.cp_loss) = _
    rw [reviewLoop_allOk plies hok wt 0 [] none]
    show (([] : List MoveReview) ++ mkReviews wt 0 plies).map (fun m => m.cp_loss) = _
    rw [List.nil_append, mkReviews_cp_loss plies wt 0]

theorem cp_loss_formula_witness :
    cpLossOf (some { type := "cp", value := some (20 : Int) })
      (some { type := "cp", value := some (-20 : Int) }) = some (20 - (-(-20) : Int)) ∧
    (isMateEval (some { type := "mate", value := some 3 }) = true ∨
      isMateEval (some { type := "cp", value := some 5 }) = true ∨
      _cp_from_eval (some { type := "mate", value := some 3 }) = none ∨
      _cp_from_eval (some { type := "cp", value := some 5 }) = none) ∧
    cpLossOf (some { type := "mate", value := some 3 })
      (some { type := "cp", value := some 5 }) = none ∧
    allOkB sampleGameOk.plies = true ∧
    (review_pgn (some { whiteToMoveFirst := true, plies := sampleGameOk.plies })).moves.map
        (fun m => m.cp_loss) =
      sampleGameOk.plies.map (fun p => cpLossOf p.before.eval p.after.eval) :=
  ⟨cp_loss_formula.1 20 (-20), Or.inl (by decide),
   cp_loss_formula.2.1 (some { type := "mate", value := some 3 })
     (some { type := "cp", value := some 5 }) (Or.inl (by decide)),
   by decide,
   cp_loss_formula.2.2 true sampleGameOk.plies (by decide)⟩

theorem classify_eq_spec (cp_loss : Option Int) (eb ea : Option EvalObj) :
    _classify cp_loss eb ea = specVerdict cp_loss eb ea := rfl

/-- C6: the verdict is Mate whenever either evaluation carries a mate marker;
otherwise, with L the absolute loss, Blunder for L at least 300, Mistake for L
at least 100, Inaccuracy for L at least 50, else Good, and Good for an
undefined loss; the pipeline records exactly this verdict on every ply. -/
theorem verdict_thresholds :
    (∀ (cp_loss : Option Int) (eb ea : Option EvalObj),
      _classify cp_loss eb ea = specVerdict cp_loss eb ea) ∧
    (∀ (wt : Bool) (plies : List PlyInput), allOkB plies = true →
      (review_pgn (some { whiteToMoveFirst := wt, plies := plies })).moves.map
          (fun m => m.verdict) =
        plies.map (fun p =>
          specVerdict (cpLossOf p.before.eval p.after.eval) p.before.eval p.after.eval)) := by
  refine ⟨classify_eq_spec, ?_⟩
  intro wt plies hok
  show (reviewLoop wt 0 plies [] none).moves.map (fun m => m.verdict) = _
  rw [reviewLoop_allOk plies hok wt 0 [] none]
  show (([] : List MoveReview) ++ mkReviews wt 0 plies).map (fun m => m.verdict) = _
  rw [List.nil_append, mkReviews_verdict plies wt 0]
  simp only [classify_eq_spec]

theorem verdict_thresholds_witness :
    _classify (some 150) (some { type := "cp", value := some 20 })
        (some { type := "cp", value := some 130 }) =
      specVerdict (some 150) (some { type := "cp", value := some 20 })
        (some { type := "cp", value := some 130 }) ∧
    allOkB sampleGameOk.plies = true ∧
    (review_pgn (some { whiteToMoveFirst := true, plies := sampleGameOk.plies })).moves.map
        (fun m => m.verdict) =
      sampleGameOk.plies.map (fun p =>
        specVerdict (cpLossOf p.before.eval p.after.eval) p.before.eval p.after.eval) :=
  ⟨verdict_thresholds.1 (some 150) (some { type := "cp", value := some 20 })
     (some { type := "cp", value := some 130 }),
   by decide, verdict_thresholds.2 true sampleGameOk.plies (by decide)⟩

theorem score_eq_spec (cp_loss : Option Int) :
    _score_from_cp_loss cp_loss = specScore cp_loss := by
  cases cp_loss with
  | none => rfl
  | some v =>
    have h0 : 0 ≤ |v| := abs_nonneg v
    unfold _score_from_cp_loss specScore
    dsimp only
    by_cases h : |v| = 0
    · rw [if_pos (by omega : |v| ≤ 0), if_pos h]
    · rw [if_neg (by omega : ¬ |v| ≤ 0), if_neg h]

theorem mkReviews_ne_nil {plies : List PlyInput} (hne : plies ≠ [])
    (whiteTurn : Bool) (idx : Nat) : mkReviews whiteTurn idx plies ≠ [] := by
  intro hmm
  apply hne
  have hlen := mkReviews_length plies whiteTurn idx
  rw [hmm] at hlen
  exact List.eq_nil_of_length_eq_zero hlen.symm

/-- C7: for a successful review of at least one ply, accuracy_percent is the
mean of the per-ply piecewise scores, scaled by 100 and rounded to one decimal
place, with the score table of the specification (an undefined loss scoring
0.9); a zero-ply input yields ok = true, an empty move list and no accuracy. -/
theorem accuracy_formula :
    (∀ cp_loss : Option Int, _score_from_cp_loss cp_loss = specScore cp_loss) ∧
    (∀ (wt : Bool) (plies : List PlyInput), allOkB plies = true → plies ≠ [] →
      (review_pgn (some { whiteToMoveFirst := wt, plies := plies })).accuracy_percent =
        some (round1
          ((plies.map (fun p => specScore (cpLossOf p.before.eval p.after.eval))).sum /
            (plies.length : ℚ) * 100))) ∧
    (∀ wt : Bool,
      (review_pgn (some { whiteToMoveFirst := wt, plies := [] })).ok = true ∧
      (review_pgn (some { whiteToMoveFirst := wt, plies := [] })).moves = [] ∧
      (review_pgn (some { whiteToMoveFirst := wt, plies := [] })).accuracy_percent = none) := by
  refine ⟨score_eq_spec, ?_, fun wt => ⟨rfl, rfl, rfl⟩⟩
  intro wt plies hok hne
  show (reviewLoop wt 0 plies [] none).accuracy_percent = _
  rw [reviewLoop_allOk plies hok wt 0 [] none, finishReview_accuracy]
  rw [List.nil_append]
  rw [if_neg (mkReviews_ne_nil hne wt 0)]
  have hmap : (mkReviews wt 0 plies).map (fun m => _score_from_cp_loss m.cp_loss) =
      plies.map (fun p => specScore (cpLossOf p.before.eval p.after.eval)) := by
    calc (mkReviews wt 0 plies).map (fun m => _score_from_cp_loss m.cp_loss)
        = ((mkReviews wt 0 plies).map (fun m => m.cp_loss)).map _score_from_cp_loss := by
          rw [List.map_map]; rfl
      _ = (plies.map (fun p => cpLossOf p.before.eval p.after.eval)).map
            _score_from_cp_loss := by
          rw [mkReviews_cp_loss plies wt 0]
      _ = plies.map (fun p => specScore (cpLossOf p.before.eval p.after.eval)) := by
          rw [List.map_map]
          simp only [Function.comp_def, score_eq_spec]
  rw [hmap, mkReviews_length plies wt 0]

theorem accuracy_formula_witness :
    _score_from_cp_loss (some 40) = specScore (some 40) ∧
    allOkB sampleGameOk.plies = true ∧ sampleGameOk.plies ≠ [] ∧
    (review_pgn (some { whiteToMoveFirst := true, plies := sampleGameOk.plies })).accuracy_percent =
      some (round1
        ((sampleGameOk.plies.map
            (fun p => specScore (cpLossOf p.before.eval p.after.eval))).sum /
          (sampleGameOk.plies.length : ℚ) * 100)) ∧
    (review_pgn (some { whiteToMoveFirst := true, plies := ([] : List PlyInput) })).ok = true ∧
    (review_pgn (some { whiteToMoveFirst := true, plies := ([] : List PlyInput) })).accuracy_percent = none :=
  ⟨accuracy_formula.1 (some 40), by decide, by decide,
   accuracy_formula.2.1 true sampleGameOk.plies (by decide) (by decide),
   (accuracy_formula.2.2 true).1, (accuracy_formula.2.2 true).2.2⟩
